import Mathlib

/-!
Verification development for the SMIV Simple Medical Image Viewer.

The Python sources are shallowly embedded: numpy float32 arrays are
modelled as total functions over rational-valued pixels together with
explicit dimensions, numpy uint8 casts as explicit floor/truncate plus
mod 256, and fallible loaders as `Except`-valued functions.  Every
definition is translated from the corresponding function in the
repository (file and function named in its doc comment).
-/

namespace SMIV

/-- Model of numpy `np.clip(v, lo, hi)` on scalars: numpy computes
`min(max(v, lo), hi)`, so when `lo > hi` the result is `hi`. -/
def npClipQ (v lo hi : ℚ) : ℚ := min (max v lo) hi

/-- Model of numpy `np.clip(v, lo, hi)` on integer scalars. -/
def npClipZ (v lo hi : ℤ) : ℤ := min (max v lo) hi

/-- Model of `np.clip(x, 0, 255).astype(np.uint8)` on one pixel: after the
clip the value is in `[0, 255]`, so the float-to-uint8 conversion is plain
truncation, i.e. the floor of a nonnegative rational. -/
def toU8 (q : ℚ) : ℤ := Int.floor (npClipQ q 0 255)

/-- Python `float` truncation toward zero (used by numpy casts of possibly
negative floats). -/
def truncQ (q : ℚ) : ℤ := if 0 ≤ q then Int.floor q else Int.ceil q

/-- Model of a bare `astype(np.uint8)` with no preceding clip: truncate
toward zero, then reduce mod 256. -/
def u8wrap (q : ℚ) : ℤ := (truncQ q) % 256

/-- Python built-in `round` on a rational: round half to even
(banker's rounding), as used by `int(round(...))` in the zoom code. -/
def pyRound (q : ℚ) : ℤ :=
  let f := Int.floor q
  let frac := q - (f : ℚ)
  if frac < 1/2 then f
  else if 1/2 < frac then f + 1
  else if f % 2 = 0 then f else f + 1

/-- A 2D grayscale float array `(H, W)`: dimensions plus a total pixel
function (reads outside `[0,h) × [0,w)` are irrelevant to every theorem). -/
structure GImg where
  h : Nat
  w : Nat
  px : Nat → Nat → ℚ

/-- A 2D integer-labelled mask array `(H, W)`. -/
structure NMask where
  h : Nat
  w : Nat
  px : Nat → Nat → Nat

/-- All pixels of a grayscale image, row-major, as produced by iterating
`y` over `range h` and `x` over `range w`. -/
def pixList (img : GImg) : List ℚ :=
  (List.range img.h).flatMap (fun y => (List.range img.w).map (fun x => img.px y x))

/-- Model of `np.min` over a 2D array: fold `min` over all pixels.  The
fold is seeded with pixel `(0,0)`, which belongs to the array whenever the
array is nonempty, so for nonempty arrays this is the true minimum. -/
def sliceMin (img : GImg) : ℚ := (pixList img).foldl min (img.px 0 0)

/-- Model of `np.max` over a 2D array. -/
def sliceMax (img : GImg) : ℚ := (pixList img).foldl max (img.px 0 0)

/-! ## Generic min-max normalization (claim C1)

Two implementations exist in the source.
-/

/-- From `viewer_multi_slicetime.py`, `build_display_image` (generic
normalization branch):
`mn, mx = np.min(s), np.max(s); if mx > mn: s = (s-mn)/(mx-mn)*255 else
s = np.zeros_like(s)`. -/
def buildDisplayNormalize (img : GImg) : GImg :=
  let mn := sliceMin img
  let mx := sliceMax img
  if mn < mx then
    ⟨img.h, img.w, fun y x => (img.px y x - mn) / (mx - mn) * 255⟩
  else
    ⟨img.h, img.w, fun _ _ => 0⟩

/-- From `viewer_multi_logic.py`, `MultiSliceTimeLogic.get_slice_for_display`
(normalization step, lines 147-152):
`min_val, max_val = s.min(), s.max(); if max_val != min_val:
s = (s-min_val)/(max_val-min_val)*255` — note the degenerate
`max == min` case leaves the slice at its raw values. -/
def logicNormalize (img : GImg) : GImg :=
  let mn := sliceMin img
  let mx := sliceMax img
  if mx ≠ mn then
    ⟨img.h, img.w, fun y x => (img.px y x - mn) / (mx - mn) * 255⟩
  else
    img

/-! ## Window/level mappings (claim C2) -/

/-- From `viewer_multi_slicetime.py`, `_apply_window_level_to_8bit`,
per pixel: `w = max(1.0, width); lo = c - w/2; hi = c + w/2;
out = clip((v - lo)/(hi - lo), 0, 1) * 255`. -/
def applyWindowLevelTo8bit (center width v : ℚ) : ℚ :=
  let w := max 1 width
  let lo := center - w / 2
  let hi := center + w / 2
  npClipQ ((v - lo) / (hi - lo)) 0 1 * 255

/-- From `image_processing.py`, `apply_window_level`, per pixel:
`if w <= 1e-6: w = 1.0; low = c - 0.5 - (w-1)/2; high = c - 0.5 + (w-1)/2;
y = clip((x - low)/(high - low), 0, 1) * 255`.  (The `np.nan_to_num` guard
is a no-op on the exact rationals of this model.) -/
def applyWindowLevel (center width v : ℚ) : ℚ :=
  let w := if width ≤ 1/1000000 then 1 else width
  let lo := center - 1/2 - (w - 1) / 2
  let hi := center - 1/2 + (w - 1) / 2
  npClipQ ((v - lo) / (hi - lo)) 0 1 * 255

/-- Modelled from the spec wording of claim C2 (for comparison with the
source definitions): clamp `w ≥ 1`, `low = c - w/2`, `high = c + w/2`,
`display = clip((value - low)/(high - low), 0, 1) * 255`. -/
def specWindowLevel (center width v : ℚ) : ℚ :=
  let w := max 1 width
  let lo := center - w / 2
  let hi := center + w / 2
  npClipQ ((v - lo) / (hi - lo)) 0 1 * 255

/-! ## Zoom + pan geometry (claims C5, C6, C10)

`apply_zoom_and_pan` (image_processing.py, lines 49-139) and
`apply_zoom_and_pan_mask` (lines 221-287) compute an identical crop
rectangle; it is transcribed once below.  `int(round(...))` uses Python's
round-half-to-even (`pyRound`), `//` is floor division on the positive
crop sizes.
-/

/-- Crop rectangle `(x1, y1, x2, y2)` before the final safety clamps:
the straight-line transcription of the computation from `crop_w = ...`
up to (and including) the four out-of-bounds adjustment `if`s. -/
def cropRectPre (h w : Nat) (zoom panx pany : ℚ) : ℤ × ℤ × ℤ × ℤ :=
  let cropW : ℤ := max 1 (min (w : ℤ) (pyRound ((w : ℚ) / zoom)))
  let cropH : ℤ := max 1 (min (h : ℤ) (pyRound ((h : ℚ) / zoom)))
  let cx : ℤ := pyRound ((w : ℚ) / 2 + panx)
  let cy : ℤ := pyRound ((h : ℚ) / 2 + pany)
  let x1 := cx - cropW / 2
  let y1 := cy - cropH / 2
  let x2 := x1 + cropW
  let y2 := y1 + cropH
  -- if x1 < 0: x1 = 0; x2 = crop_w   (and the y analogue)
  let x2 := if x1 < 0 then cropW else x2
  let x1 := if x1 < 0 then 0 else x1
  let y2 := if y1 < 0 then cropH else y2
  let y1 := if y1 < 0 then 0 else y1
  -- if x2 > w: x2 = w; x1 = w - crop_w   (and the y analogue)
  let x1 := if (w : ℤ) < x2 then (w : ℤ) - cropW else x1
  let x2 := if (w : ℤ) < x2 then (w : ℤ) else x2
  let y1 := if (h : ℤ) < y2 then (h : ℤ) - cropH else y1
  let y2 := if (h : ℤ) < y2 then (h : ℤ) else y2
  (x1, y1, x2, y2)

/-- The final safety clamps:
`x1 = max(0, min(x1, w-1)); y1 = max(0, min(y1, h-1));
x2 = max(x1+1, min(x2, w)); y2 = max(y1+1, min(y2, h))`. -/
def cropRect (h w : Nat) (zoom panx pany : ℚ) : ℤ × ℤ × ℤ × ℤ :=
  let p := cropRectPre h w zoom panx pany
  let x1 := max 0 (min p.1 ((w : ℤ) - 1))
  let y1 := max 0 (min p.2.1 ((h : ℤ) - 1))
  let x2 := max (x1 + 1) (min p.2.2.1 (w : ℤ))
  let y2 := max (y1 + 1) (min p.2.2.2 (h : ℤ))
  (x1, y1, x2, y2)

/-- Model of `cv2.resize(src, (dstW, dstH), interpolation=cv2.INTER_NEAREST)`
source-column index for destination column `x`: `floor(x * srcW / dstW)`
clamped to `srcW - 1` (OpenCV nearest-neighbor coordinate mapping).  With
natural-number division this is `min (x * srcW / dstW) (srcW - 1)`. -/
def nnIndex (srcN dstN x : Nat) : Nat := min (x * srcN / dstN) (srcN - 1)

/-- From `image_processing.py`, `apply_zoom_and_pan_mask`: early return
when `zoom` is within `1e-6` of `1.0`; reset nonpositive zoom to `1.0`;
crop with the shared rectangle; `astype(np.uint8)` (mod 256 on the
integer labels); nearest-neighbor resize back to `(H, W)`.  (For an empty
mask the real code raises inside `cv2.resize`; the claims only quantify
over nonempty masks.) -/
def applyZoomAndPanMask (m : NMask) (zoom panx pany : ℚ) : NMask :=
  if |zoom - 1| < 1/1000000 then m
  else
    let z := if zoom ≤ 0 then 1 else zoom
    let r := cropRect m.h m.w z panx pany
    let cw : Nat := (r.2.2.1 - r.1).toNat
    let ch : Nat := (r.2.2.2 - r.2.1).toNat
    let cropped : Nat → Nat → Nat := fun y x =>
      (m.px (r.2.1.toNat + y) (r.1.toNat + x)) % 256
    ⟨m.h, m.w, fun y x => cropped (nnIndex ch m.h y) (nnIndex cw m.w x)⟩

/-- From `overlay_utils.py`, `resize_mask_nearest`:
`m = mask.astype(np.uint8); cv2.resize(m, (target_w, target_h),
INTER_NEAREST); return resized.astype(np.uint8)`. -/
def resizeMaskNearest (m : NMask) (targetW targetH : Nat) : NMask :=
  ⟨targetH, targetW, fun y x =>
    (m.px (nnIndex m.h targetH y) (nnIndex m.w targetW x)) % 256⟩

/-! ## The processing pipeline (claims C5, C10) -/

/-- A 3D color float array `(H, W, C)`. -/
structure CImg where
  h : Nat
  w : Nat
  c : Nat
  px : Nat → Nat → Nat → ℚ

/-- An image as fed to the pipeline: `ndim == 2` (grayscale) or
`ndim == 3` (color). -/
inductive NpImg where
  | gray (g : GImg)
  | color (ci : CImg)

/-- The external OpenCV primitives called by the pipeline.  They are
library code, not part of this repository, so the embedding is
parametric in them; every theorem below holds for all interpretations. -/
structure CvPrims where
  equalizeHist : GImg → GImg
  cvtBGR2Gray : CImg → GImg
  jetLUT : ℤ → Nat → ℚ
  resizeLinearG : GImg → Nat → Nat → GImg
  resizeLinearC : CImg → Nat → Nat → CImg

/-- From `image_processing.py`, `apply_histogram_equalization` on a
single-channel image: cast to uint8 (bare `astype`, i.e. wrap mod 256),
run `cv2.equalizeHist`, cast back to float32. -/
def applyHistogramEqualization (P : CvPrims) (g : GImg) : GImg :=
  P.equalizeHist ⟨g.h, g.w, fun y x => ((u8wrap (g.px y x) : ℤ) : ℚ)⟩

/-- From `image_processing.py`, `apply_histogram_equalization` on a
3-channel image: convert to grayscale first via `cv2.cvtColor`. -/
def applyHistogramEqualizationColor (P : CvPrims) (ci : CImg) : GImg :=
  P.equalizeHist
    (P.cvtBGR2Gray ⟨ci.h, ci.w, ci.c, fun y x k => ((u8wrap (ci.px y x k) : ℤ) : ℚ)⟩)

/-- From `image_processing.py`, `apply_colormap`:
`img_u8 = np.clip(img, 0, 255).astype(np.uint8);
colored = cv2.applyColorMap(img_u8, cv2.COLORMAP_JET)` — a 256-entry
lookup table application, output `(H, W, 3)`. -/
def applyColormapJet (P : CvPrims) (g : GImg) : CImg :=
  ⟨g.h, g.w, 3, fun y x k => P.jetLUT (toU8 (g.px y x)) k⟩

/-- From `image_processing.py`, `adjust_brightness_contrast`:
`out = img * contrast + brightness` (unclamped). -/
def adjustBrightnessContrast (img : NpImg) (brightness contrast : ℚ) : NpImg :=
  match img with
  | .gray g => .gray ⟨g.h, g.w, fun y x => g.px y x * contrast + brightness⟩
  | .color ci => .color ⟨ci.h, ci.w, ci.c, fun y x k => ci.px y x k * contrast + brightness⟩

/-- From `image_processing.py`, `apply_zoom_and_pan`: early return when
`zoom` is within `1e-6` of `1.0`; reset nonpositive zoom; crop with the
shared rectangle; `np.clip(...,0,255).astype(np.uint8)`; linear resize
(`cv2.INTER_LINEAR`, an external primitive) back to the original size;
cast to float32. -/
def applyZoomAndPan (P : CvPrims) (img : NpImg) (zoom panx pany : ℚ) : NpImg :=
  if |zoom - 1| < 1/1000000 then img
  else
    let z := if zoom ≤ 0 then 1 else zoom
    match img with
    | .gray g =>
      let r := cropRect g.h g.w z panx pany
      let cropped : GImg := ⟨(r.2.2.2 - r.2.1).toNat, (r.2.2.1 - r.1).toNat,
        fun y x => ((toU8 (g.px (r.2.1.toNat + y) (r.1.toNat + x)) : ℤ) : ℚ)⟩
      .gray (P.resizeLinearG cropped g.w g.h)
    | .color ci =>
      let r := cropRect ci.h ci.w z panx pany
      let cropped : CImg := ⟨(r.2.2.2 - r.2.1).toNat, (r.2.2.1 - r.1).toNat, ci.c,
        fun y x k => ((toU8 (ci.px (r.2.1.toNat + y) (r.1.toNat + x) k) : ℤ) : ℚ)⟩
      .color (P.resizeLinearC cropped ci.w ci.h)

/-- From `image_processing.py`, `apply_all_processing`: the fixed-order
optional chain (histogram equalization, brightness/contrast, colormap,
zoom+pan); the float32 casts at entry and exit are identities on this
exact-valued model. -/
def applyAllProcessing (P : CvPrims) (img : NpImg)
    (histEq bc : Bool) (brightness contrast : ℚ)
    (cmap zoomEnabled : Bool) (zoomFactor panx pany : ℚ) : NpImg :=
  let out := img
  let out := if histEq then
      match out with
      | .gray g => .gray (applyHistogramEqualization P g)
      | .color ci =>
        if ci.c = 1 then
          .gray (applyHistogramEqualization P ⟨ci.h, ci.w, fun y x => ci.px y x 0⟩)
        else out
    else out
  let out := if bc then adjustBrightnessContrast out brightness contrast else out
  let out := if cmap then
      match out with
      | .gray g => .color (applyColormapJet P g)
      | .color ci =>
        if ci.c = 1 then
          .color (applyColormapJet P ⟨ci.h, ci.w, fun y x => ci.px y x 0⟩)
        else out
    else out
  if zoomEnabled then applyZoomAndPan P out zoomFactor panx pany else out

/-! ## Mask plane extraction (claim C7) -/

/-- A mask volume of rank 2, 3 or 4, as accepted by `get_mask_slice`. -/
inductive MaskVol where
  | d2 (m : GImg)
  | d3 (h w z : Nat) (px : Nat → Nat → Nat → ℚ)
  | d4 (h w z t : Nat) (px : Nat → Nat → Nat → Nat → ℚ)

/-- From `overlay_utils.py`, `get_mask_slice`: rank 2 is returned as-is;
rank 3 indexes `m[..., int(np.clip(z, 0, shape[2]-1))]`; rank 4 clamps
both `z` and `t`.  When the clamped axis has extent 0, `np.clip(z, 0, -1)`
yields `-1` and the subsequent numpy indexing raises `IndexError`; the
model returns `.error` exactly there. -/
def getMaskSlice (mv : MaskVol) (zIdx tIdx : ℤ) : Except String GImg :=
  match mv with
  | .d2 m => .ok m
  | .d3 h w z px =>
    if 1 ≤ z then
      .ok ⟨h, w, fun y x => px y x (npClipZ zIdx 0 ((z : ℤ) - 1)).toNat⟩
    else .error "index out of bounds for axis of size 0"
  | .d4 h w z t px =>
    if 1 ≤ z ∧ 1 ≤ t then
      .ok ⟨h, w, fun y x =>
        px y x (npClipZ zIdx 0 ((z : ℤ) - 1)).toNat (npClipZ tIdx 0 ((t : ℤ) - 1)).toNat⟩
    else .error "index out of bounds for axis of size 0"

/-! ## Overlay compositing (claim C8) -/

/-- An RGB float frame (the `np.array(base_rgb, dtype=np.float32)` of
`apply_overlay_to_pil`; a mode-"L" input is converted to RGB by PIL
before this point). -/
structure RGBImg where
  h : Nat
  w : Nat
  px : Nat → Nat → Fin 3 → ℚ

/-- The resulting uint8 RGB frame. -/
structure U8RGBImg where
  h : Nat
  w : Nat
  px : Nat → Nat → Fin 3 → ℤ

/-- From `overlay_utils.py`, `apply_overlay_to_pil`: clamp `alpha` to
`[0,1]`; raise (here `.error`) on a size mismatch; alpha-blend the solid
overlay color where `mask > 0`; finally `np.clip(..., 0, 255).astype(np.uint8)`
over the whole frame. -/
def applyOverlayToPil (base : RGBImg) (mask : NMask) (alpha : ℚ)
    (color : Fin 3 → ℚ) : Except String U8RGBImg :=
  let a := max 0 (min 1 alpha)
  if base.h = mask.h ∧ base.w = mask.w then
    .ok ⟨base.h, base.w, fun y x k =>
      if 0 < mask.px y x then toU8 ((1 - a) * base.px y x k + a * color k)
      else toU8 (base.px y x k)⟩
  else .error "Mask size does not match image size"

/-! ## View state (claim C9) -/

/-- The zoom-related part of the `state` dictionary of
`viewer_multi_slicetime.py` (plus the slice indices, to record that the
toggle leaves them alone). -/
structure ViewState where
  zoomEnabled : Bool
  zoomFactor : ℚ
  panX : ℚ
  panY : ℚ
  zIndex : Nat
  tIndex : Nat

/-- From `viewer_multi_slicetime.py`, `toggle_zoom`:
`state["zoom_enabled"] = zoom_var.get(); state["pan_x"] = 0.0;
state["pan_y"] = 0.0; state["zoom_factor"] = 1.0` (then re-render). -/
def toggleZoom (checkboxValue : Bool) (s : ViewState) : ViewState :=
  { s with zoomEnabled := checkboxValue, panX := 0, panY := 0, zoomFactor := 1 }

/-- From `viewer_multi_slicetime.py`, `on_mouse_wheel`: when zoom is
enabled, multiply or divide the factor by `1.1` and clamp it to
`[0.5, 10.0]`. -/
def onMouseWheel (delta : ℤ) (s : ViewState) : ViewState :=
  if s.zoomEnabled then
    let f := if 0 < delta then s.zoomFactor * (11/10) else s.zoomFactor / (11/10)
    { s with zoomFactor := max (1/2) (min 10 f) }
  else s

/-! ## DICOM series assembly (claims C3, C4)

`image_loader.py`.  A DICOM file on disk is modelled by the header
fields the loader reads, the outcomes of the fallible pydicom calls, and
the decoded pixel array.  All float-valued tags are exact rationals.
-/

/-- The header tags read by `load_dicom_series_from_file` and
`_series_sort_key`.  `ipp`/`iop` are `some` exactly when the tags are
present with the required 3 and 6 components. -/
structure DHeader where
  seriesUID : Option String
  numberOfFrames : Option ℤ
  hasRowsCols : Bool
  ipp : Option (ℚ × ℚ × ℚ)
  iop : Option ((ℚ × ℚ × ℚ) × (ℚ × ℚ × ℚ))
  sliceLocation : Option ℚ
  instanceNumber : Option ℤ
  rescaleSlope : Option ℚ
  rescaleIntercept : Option ℚ
  monochrome1 : Bool

/-- Python truthiness of the `SeriesInstanceUID` in
`if not series_uid:` — absent or empty string is falsy. -/
def uidPresent : Option String → Bool
  | none => false
  | some s => decide (s ≠ "")

/-- Model of `_safe_float(getattr(ds, "RescaleSlope", 1.0), 1.0)`. -/
def slopeOf (hd : DHeader) : ℚ := hd.rescaleSlope.getD 1

/-- Model of `_safe_float(getattr(ds, "RescaleIntercept", 0.0), 0.0)`. -/
def interceptOf (hd : DHeader) : ℚ := hd.rescaleIntercept.getD 0

/-- Model of `_safe_int(getattr(ref, "NumberOfFrames", None), default=1)`. -/
def nframesOf (hd : DHeader) : ℤ := hd.numberOfFrames.getD 1

/-- A decoded `pixel_array`: 2D `(H, W)`, 3D `(D, H, W)`, or some other
rank (never decoded further by the claims). -/
inductive PixArr where
  | arr2 (g : GImg)
  | arr3 (d h w : Nat) (px : Nat → Nat → Nat → ℚ)
  | arrOther

/-- A DICOM file as the loader sees it: `hdrOk` is whether the
header-only `dcmread` succeeds, `hasPixelData` is `hasattr(ds, "PixelData")`,
`pixOk` is whether the full read plus `ds.pixel_array` succeeds. -/
structure DFile where
  name : String
  hdrOk : Bool
  hdr : DHeader
  hasPixelData : Bool
  pixOk : Bool
  pix : PixArr

/-- A loaded volume: rank 2/3/4 float array or a rank the claims never
inspect. -/
inductive NArr where
  | a2 (h w : Nat) (px : Nat → Nat → ℚ)
  | a3 (h w z : Nat) (px : Nat → Nat → Nat → ℚ)
  | a4 (h w z t : Nat) (px : Nat → Nat → Nat → Nat → ℚ)
  | aOther

/-- The sort key produced by `_series_sort_key`: a Python tuple
`(tier, value)` whose tier determines the value's type, so the
cross-tier comparison is decided by the tier alone. -/
inductive SortKey where
  | proj (v : ℚ)
  | sliceLoc (v : ℚ)
  | instNum (v : ℤ)
  | fname (v : String)

def SortKey.tier : SortKey → Nat
  | .proj _ => 0
  | .sliceLoc _ => 1
  | .instNum _ => 2
  | .fname _ => 3

/-- Python tuple comparison on `(tier, value)` pairs, restricted to the
pairs `_series_sort_key` can produce (equal tiers imply same payload
type). -/
def SortKey.leb : SortKey → SortKey → Bool
  | .proj a, .proj b => decide (a ≤ b)
  | .sliceLoc a, .sliceLoc b => decide (a ≤ b)
  | .instNum a, .instNum b => decide (a ≤ b)
  | .fname a, .fname b => decide (a ≤ b)
  | k1, k2 => decide (k1.tier < k2.tier)

/-- The projection `normal = row x col; loc = position . normal` from
`_series_sort_key`. -/
def normalProjection : (ℚ × ℚ × ℚ) → ((ℚ × ℚ × ℚ) × (ℚ × ℚ × ℚ)) → ℚ
  | (px, py, pz), ((rx, ry, rz), (cx, cy, cz)) =>
    let nx := ry * cz - rz * cy
    let ny := rz * cx - rx * cz
    let nz := rx * cy - ry * cx
    px * nx + py * ny + pz * nz

/-- From `image_loader.py`, `_series_sort_key`: tier 0 is the projection
of `ImagePositionPatient` on the slice normal when both IPP and IOP are
present (with the required component counts); tier 1 is `SliceLocation`;
tier 2 is `InstanceNumber`; tier 3 is the filename. -/
def seriesSortKey (hd : DHeader) (fallbackName : String) : SortKey :=
  match hd.ipp, hd.iop with
  | some ipp, some iop => .proj (normalProjection ipp iop)
  | _, _ =>
    match hd.sliceLocation with
    | some sl => .sliceLoc sl
    | none =>
      match hd.instanceNumber with
      | some n => .instNum n
      | none => .fname fallbackName

/-- The comparison `candidates.sort(key=...)` sorts by. -/
def fileLe (a b : DFile) : Prop :=
  SortKey.leb (seriesSortKey a.hdr a.name) (seriesSortKey b.hdr b.name) = true

instance : DecidableRel fileLe := fun a b => by
  unfold fileLe; infer_instance

/-- Model of `candidates.sort(key=...)`: Python's sort is stable, as is
insertion sort; for a total transitive comparison both produce the unique
stable ordering. -/
def sortCandidates (l : List DFile) : List DFile := List.insertionSort fileLe l

/-- The folder scan of `load_dicom_series_from_file`: keep files whose
header-only read succeeds, whose `SeriesInstanceUID` equals the
reference's, and which declare `Rows` and `Columns`. -/
def candidateFilter (uid : Option String) (folder : List DFile) : List DFile :=
  folder.filter (fun f => f.hdrOk && (f.hdr.seriesUID == uid) && f.hdr.hasRowsCols)

/-- The single-file load used both when the series identity is absent and
when the folder scan finds no candidates: full read, `pixel_array`,
`arr * slope + intercept`, `arr[..., np.newaxis]` (depth 1, no
photometric inversion). -/
def singleFileLoad (f : DFile) : Except String NArr :=
  if f.pixOk then
    let s := slopeOf f.hdr
    let i := interceptOf f.hdr
    match f.pix with
    | .arr2 g => .ok (.a3 g.h g.w 1 (fun y x _ => g.px y x * s + i))
    | .arr3 d h w p => .ok (.a4 d h w 1 (fun a b c _ => p a b c * s + i))
    | .arrOther => .ok .aOther
  else .error "Failed to read pixel data"

/-- The multi-frame branch: `np.moveaxis(arr, 0, -1)` turns
`(frames, H, W)` into `(H, W, frames)`, then slope/intercept. -/
def multiFrameLoad (f : DFile) : Except String NArr :=
  if f.pixOk then
    let s := slopeOf f.hdr
    let i := interceptOf f.hdr
    match f.pix with
    | .arr3 d h w p => .ok (.a3 h w d (fun y x k => p k y x * s + i))
    | .arr2 g => .ok (.a2 g.h g.w (fun y x => g.px y x * s + i))
    | .arrOther => .ok .aOther
  else .error "Failed to read pixel data"

/-- Per-slice intensity transform in the stacking loop:
`arr2d = arr2d * slope + intercept`, then the MONOCHROME1 inversion
`arr2d = np.max(arr2d) - arr2d`. -/
def scaleSlice (hd : DHeader) (g : GImg) : GImg :=
  let scaled : GImg := ⟨g.h, g.w, fun y x => g.px y x * slopeOf hd + interceptOf hd⟩
  if hd.monochrome1 then ⟨g.h, g.w, fun y x => sliceMax scaled - scaled.px y x⟩
  else scaled

/-- One iteration of the stacking loop: skip files whose full read or
`pixel_array` fails, files without `PixelData`, non-2D pixel arrays, and
slices whose shape disagrees with the first accepted slice; otherwise
record the first shape and prepend the transformed slice. -/
def stackStep (st : Option (Nat × Nat) × List GImg) (f : DFile) :
    Option (Nat × Nat) × List GImg :=
  if f.pixOk ∧ f.hasPixelData then
    match f.pix with
    | .arr2 g =>
      match st.1 with
      | none => (some (g.h, g.w), scaleSlice f.hdr g :: st.2)
      | some sh => if (g.h, g.w) = sh then (st.1, scaleSlice f.hdr g :: st.2) else st
    | _ => st
  else st

/-- From `image_loader.py`, `load_dicom_series_from_file`, given the
reference file and the (name-sorted) listing of its folder:
header read, series-identity check, multi-frame shortcut, folder scan,
empty-candidates fallback, sort, stacking loop, and the final
`np.stack(slices, axis=-1)`. -/
def loadDicomSeriesFromFile (ref : DFile) (folder : List DFile) : Except String NArr :=
  if ¬ ref.hdrOk then .error "Failed to read DICOM header"
  else if ¬ uidPresent ref.hdr.seriesUID then singleFileLoad ref
  else if 1 < nframesOf ref.hdr then multiFrameLoad ref
  else
    let cands := candidateFilter ref.hdr.seriesUID folder
    if cands.isEmpty then singleFileLoad ref
    else
      let sorted := sortCandidates cands
      let st := sorted.foldl stackStep (none, [])
      match st.2.reverse with
      | [] => .error "Failed to load any slice pixel data for this series."
      | g :: rest =>
        .ok (.a3 g.h g.w (g :: rest).length
          (fun y x k => ((g :: rest).getD k ⟨0, 0, fun _ _ => 0⟩).px y x))

/-- Pixel extractor for stating concrete facts about `Except`-valued
volume results (out-of-shape reads default to `999`). -/
def volAt (r : Except String NArr) (y x k : Nat) : ℚ :=
  match r with
  | .ok (.a3 _ _ _ p) => p y x k
  | _ => 999

/-- The tier-0 sort value of a file whose IPP and IOP are present. -/
def projKey (f : DFile) : ℚ :=
  match f.hdr.ipp, f.hdr.iop with
  | some ipp, some iop => normalProjection ipp iop
  | _, _ => 0

/-- The declared `SliceLocation` of a file (0 when absent). -/
def slKey (f : DFile) : ℚ := f.hdr.sliceLocation.getD 0

/-- A structurally valid single grayscale DICOM file: readable header,
`PixelData` present and decodable as a 2D array, `Rows`/`Columns`
declared, and not multi-frame. -/
def structValidGray (f : DFile) : Prop :=
  f.hdrOk = true ∧ f.hasPixelData = true ∧ f.pixOk = true ∧
  f.hdr.hasRowsCols = true ∧ nframesOf f.hdr ≤ 1 ∧ ∃ g, f.pix = PixArr.arr2 g

/-- A concrete interpretation of the external OpenCV primitives, used
only to instantiate witness statements. -/
def trivPrims : CvPrims :=
  { equalizeHist := fun g => g
    cvtBGR2Gray := fun ci => ⟨ci.h, ci.w, fun y x => ci.px y x 0⟩
    jetLUT := fun v _ => (v : ℚ)
    resizeLinearG := fun g _ _ => g
    resizeLinearC := fun ci _ _ => ci }

/-- Test fixture: a header-only DICOM sibling carrying only a
`SliceLocation` of 5. -/
def dfA : DFile :=
  ⟨"a", true, ⟨some "u", none, true, none, none, some 5, none, none, none, false⟩,
    true, true, PixArr.arrOther⟩

/-- Test fixture: like `dfA` but with `SliceLocation` 3. -/
def dfB : DFile :=
  ⟨"b", true, ⟨some "u", none, true, none, none, some 3, none, none, none, false⟩,
    true, true, PixArr.arrOther⟩

/-- Test fixture: orientation+position tags giving normal projection 2,
with `InstanceNumber` 1. -/
def dfC : DFile :=
  ⟨"c", true, ⟨some "u", none, true, some (0, 0, 2), some ((1, 0, 0), (0, 1, 0)),
    none, some 1, none, none, false⟩, true, true, PixArr.arrOther⟩

/-- Test fixture: orientation+position tags giving normal projection 1,
with `InstanceNumber` 2 (so instance order disagrees with geometry). -/
def dfD : DFile :=
  ⟨"d", true, ⟨some "u", none, true, some (0, 0, 1), some ((1, 0, 0), (0, 1, 0)),
    none, some 2, none, none, false⟩, true, true, PixArr.arrOther⟩

/-- Test fixture: a lone structurally valid single grayscale DICOM file
with a series identity, a 1x1 pixel array of value 3, no rescale tags,
and `PhotometricInterpretation == MONOCHROME1`. -/
def dfE : DFile :=
  ⟨"e", true, ⟨some "1.2", none, true, none, none, none, none, none, none, true⟩,
    true, true, PixArr.arr2 ⟨1, 1, fun _ _ => 3⟩⟩

/-! ## Helper lemmas -/

theorem foldl_min_le_init (l : List ℚ) (a : ℚ) : l.foldl min a ≤ a := by
  induction l generalizing a with
  | nil => exact le_refl a
  | cons x xs ih => exact le_trans (ih (min a x)) (min_le_left a x)

theorem foldl_min_le_mem {l : List ℚ} {x : ℚ} (hx : x ∈ l) (a : ℚ) :
    l.foldl min a ≤ x := by
  induction l generalizing a with
  | nil => cases hx
  | cons y ys ih =>
    rcases List.mem_cons.mp hx with h | h
    · subst h
      exact le_trans (foldl_min_le_init ys (min a x)) (min_le_right a x)
    · exact ih h (min a y)

theorem init_le_foldl_max (l : List ℚ) (a : ℚ) : a ≤ l.foldl max a := by
  induction l generalizing a with
  | nil => exact le_refl a
  | cons x xs ih => exact le_trans (le_max_left a x) (ih (max a x))

theorem mem_le_foldl_max {l : List ℚ} {x : ℚ} (hx : x ∈ l) (a : ℚ) :
    x ≤ l.foldl max a := by
  induction l generalizing a with
  | nil => cases hx
  | cons y ys ih =>
    rcases List.mem_cons.mp hx with h | h
    · subst h
      exact le_trans (le_max_right a x) (init_le_foldl_max ys (max a x))
    · exact ih h (max a y)

theorem px_mem_pixList {img : GImg} {y x : Nat} (hy : y < img.h) (hx : x < img.w) :
    img.px y x ∈ pixList img := by
  unfold pixList
  refine List.mem_flatMap.mpr ⟨y, List.mem_range.mpr hy, ?_⟩
  exact List.mem_map.mpr ⟨x, List.mem_range.mpr hx, rfl⟩

theorem sliceMin_le_px {img : GImg} {y x : Nat} (hy : y < img.h) (hx : x < img.w) :
    sliceMin img ≤ img.px y x :=
  foldl_min_le_mem (px_mem_pixList hy hx) _

theorem px_le_sliceMax {img : GImg} {y x : Nat} (hy : y < img.h) (hx : x < img.w) :
    img.px y x ≤ sliceMax img :=
  mem_le_foldl_max (px_mem_pixList hy hx) _

theorem sliceMin_le_sliceMax (img : GImg) : sliceMin img ≤ sliceMax img :=
  le_trans (foldl_min_le_init _ _) (init_le_foldl_max _ _)

/-- After the safety clamps the crop rectangle is well-formed whenever
the array is nonempty. -/
theorem cropRect_bounds (h w : Nat) (zoom panx pany : ℚ)
    (hh : 1 ≤ h) (hw : 1 ≤ w) :
    0 ≤ (cropRect h w zoom panx pany).1 ∧
    (cropRect h w zoom panx pany).1 < (w : ℤ) ∧
    (cropRect h w zoom panx pany).1 < (cropRect h w zoom panx pany).2.2.1 ∧
    (cropRect h w zoom panx pany).2.2.1 ≤ (w : ℤ) ∧
    0 ≤ (cropRect h w zoom panx pany).2.1 ∧
    (cropRect h w zoom panx pany).2.1 < (h : ℤ) ∧
    (cropRect h w zoom panx pany).2.1 < (cropRect h w zoom panx pany).2.2.2 ∧
    (cropRect h w zoom panx pany).2.2.2 ≤ (h : ℤ) := by
  simp only [cropRect]
  have hw1 : (1 : ℤ) ≤ (w : ℤ) := by exact_mod_cast hw
  have hh1 : (1 : ℤ) ≤ (h : ℤ) := by exact_mod_cast hh
  omega

theorem SortKey.leb_total (k1 k2 : SortKey) : k1.leb k2 = true ∨ k2.leb k1 = true := by
  cases k1 <;> cases k2 <;>
    simp only [SortKey.leb, SortKey.tier, decide_eq_true_eq] <;>
    first
      | exact le_total _ _
      | omega

theorem SortKey.leb_trans {k1 k2 k3 : SortKey}
    (h12 : k1.leb k2 = true) (h23 : k2.leb k3 = true) : k1.leb k3 = true := by
  cases k1 <;> cases k2 <;> cases k3 <;>
    simp only [SortKey.leb, SortKey.tier, decide_eq_true_eq] at h12 h23 ⊢ <;>
    first
      | exact le_trans h12 h23
      | omega

instance : IsTotal DFile fileLe :=
  ⟨fun _ _ => SortKey.leb_total _ _⟩

instance : IsTrans DFile fileLe :=
  ⟨fun _ _ _ h12 h23 => SortKey.leb_trans h12 h23⟩

theorem npClipQ01_nonneg (t : ℚ) : 0 ≤ npClipQ t 0 1 :=
  le_min (le_max_right t 0) (by norm_num)

theorem npClipQ01_le_one (t : ℚ) : npClipQ t 0 1 ≤ 1 :=
  min_le_right _ _

theorem npClipQ01_mono {t t2 : ℚ} (h : t ≤ t2) : npClipQ t 0 1 ≤ npClipQ t2 0 1 :=
  min_le_min (max_le_max h (le_refl 0)) (le_refl 1)

theorem clip255_bounds (t : ℚ) :
    0 ≤ npClipQ t 0 1 * 255 ∧ npClipQ t 0 1 * 255 ≤ 255 := by
  constructor
  · exact mul_nonneg (npClipQ01_nonneg t) (by norm_num)
  · have h := npClipQ01_le_one t
    nlinarith [npClipQ01_nonneg t]

theorem clip255_mono {t t2 : ℚ} (h : t ≤ t2) :
    npClipQ t 0 1 * 255 ≤ npClipQ t2 0 1 * 255 :=
  mul_le_mul_of_nonneg_right (npClipQ01_mono h) (by norm_num)

/-! ## Claim theorems -/

/-- Claim C1 (amended): `build_display_image` computes
`(value - min)/(max - min) * 255` over the current slice only with output
in `[0, 255]`, and maps a `max == min` slice entirely to 0;
`MultiSliceTimeLogic.get_slice_for_display` applies the same formula when
`max != min` but leaves a degenerate slice at its raw values instead of
zeroing it. -/
theorem C1_minmax_normalize (img : GImg) (y x : Nat)
    (hy : y < img.h) (hx : x < img.w) :
    (0 ≤ (buildDisplayNormalize img).px y x ∧ (buildDisplayNormalize img).px y x ≤ 255)
    ∧ (sliceMin img < sliceMax img →
        (buildDisplayNormalize img).px y x
          = (img.px y x - sliceMin img) / (sliceMax img - sliceMin img) * 255
        ∧ (logicNormalize img).px y x
          = (img.px y x - sliceMin img) / (sliceMax img - sliceMin img) * 255)
    ∧ (sliceMax img = sliceMin img →
        (buildDisplayNormalize img).px y x = 0
        ∧ (logicNormalize img).px y x = img.px y x) := by
  have hmn := sliceMin_le_px hy hx
  have hmx := px_le_sliceMax hy hx
  by_cases hlt : sliceMin img < sliceMax img
  · have hne : sliceMax img ≠ sliceMin img := ne_of_gt hlt
    have hpos : 0 < sliceMax img - sliceMin img := by linarith
    refine ⟨?_, fun _ => ?_, fun he => absurd he hne⟩
    · simp only [buildDisplayNormalize, if_pos hlt]
      constructor
      · exact mul_nonneg (div_nonneg (by linarith) (le_of_lt hpos)) (by norm_num)
      · have h1 : (img.px y x - sliceMin img) / (sliceMax img - sliceMin img) ≤ 1 :=
          (div_le_one hpos).mpr (by linarith)
        have h0 : 0 ≤ (img.px y x - sliceMin img) / (sliceMax img - sliceMin img) :=
          div_nonneg (by linarith) (le_of_lt hpos)
        nlinarith
    · constructor
      · simp only [buildDisplayNormalize, if_pos hlt]
      · simp only [logicNormalize, if_pos hne]
  · have heq : sliceMax img = sliceMin img :=
      le_antisymm (not_lt.mp hlt) (sliceMin_le_sliceMax img)
    have hne : ¬ sliceMax img ≠ sliceMin img := by simp [heq]
    refine ⟨?_, fun h => absurd h hlt, fun _ => ?_⟩
    · simp only [buildDisplayNormalize, if_neg hlt]
      norm_num
    · constructor
      · simp only [buildDisplayNormalize, if_neg hlt]
      · simp only [logicNormalize, if_neg hne]

/-- Claim C1, counterexample to the claim as stated: the normalization
step of `MultiSliceTimeLogic.get_slice_for_display` leaves the constant
slice `[[7]]` (whose max equals its min) at value 7, not 0. -/
theorem C1_counterexample :
    (logicNormalize ⟨1, 1, fun _ _ => 7⟩).px 0 0 = 7 ∧ ((7 : ℚ) ≠ 0) := by
  constructor
  · decide
  · norm_num

/-- Claim C1, witness: the amended theorem applied to the slice
`[[0, 1]]` at pixel `(0, 1)`. -/
theorem C1_minmax_normalize_witness :
    ((0 : Nat) < 1 ∧ (1 : Nat) < 2) ∧
    ((0 ≤ (buildDisplayNormalize ⟨1, 2, fun _ x => (x : ℚ)⟩).px 0 1
      ∧ (buildDisplayNormalize ⟨1, 2, fun _ x => (x : ℚ)⟩).px 0 1 ≤ 255)
    ∧ (sliceMin ⟨1, 2, fun _ x => (x : ℚ)⟩ < sliceMax ⟨1, 2, fun _ x => (x : ℚ)⟩ →
        (buildDisplayNormalize ⟨1, 2, fun _ x => (x : ℚ)⟩).px 0 1
          = ((⟨1, 2, fun _ x => (x : ℚ)⟩ : GImg).px 0 1 - sliceMin ⟨1, 2, fun _ x => (x : ℚ)⟩)
            / (sliceMax ⟨1, 2, fun _ x => (x : ℚ)⟩ - sliceMin ⟨1, 2, fun _ x => (x : ℚ)⟩) * 255
        ∧ (logicNormalize ⟨1, 2, fun _ x => (x : ℚ)⟩).px 0 1
          = ((⟨1, 2, fun _ x => (x : ℚ)⟩ : GImg).px 0 1 - sliceMin ⟨1, 2, fun _ x => (x : ℚ)⟩)
            / (sliceMax ⟨1, 2, fun _ x => (x : ℚ)⟩ - sliceMin ⟨1, 2, fun _ x => (x : ℚ)⟩) * 255)
    ∧ (sliceMax ⟨1, 2, fun _ x => (x : ℚ)⟩ = sliceMin ⟨1, 2, fun _ x => (x : ℚ)⟩ →
        (buildDisplayNormalize ⟨1, 2, fun _ x => (x : ℚ)⟩).px 0 1 = 0
        ∧ (logicNormalize ⟨1, 2, fun _ x => (x : ℚ)⟩).px 0 1
            = (⟨1, 2, fun _ x => (x : ℚ)⟩ : GImg).px 0 1)) :=
  ⟨⟨by decide, by decide⟩,
    C1_minmax_normalize ⟨1, 2, fun _ x => (x : ℚ)⟩ 0 1 (by decide) (by decide)⟩

/-- Claim C2 (amended): the display mapping `_apply_window_level_to_8bit`
satisfies the claimed formula exactly (clamp `w >= 1`, `low = c - w/2`,
`high = c + w/2`, `clip((v-low)/(high-low),0,1)*255`), always produces
output in `[0, 255]` and is monotone non-decreasing in the input value;
the library function `apply_window_level` instead uses
`low = c - w/2`, `high = c + w/2 - 1` (denominator `w - 1`, with `w`
clamped to 1 only when `w <= 1e-6`), and for every `width > 1` its output
is in `[0, 255]` and monotone non-decreasing in the input value. -/
theorem C2_window_level (c w v v2 : ℚ) (hv : v ≤ v2) :
    applyWindowLevelTo8bit c w v = specWindowLevel c w v
    ∧ (0 ≤ applyWindowLevelTo8bit c w v ∧ applyWindowLevelTo8bit c w v ≤ 255)
    ∧ applyWindowLevelTo8bit c w v ≤ applyWindowLevelTo8bit c w v2
    ∧ (1 < w → 0 ≤ applyWindowLevel c w v ∧ applyWindowLevel c w v ≤ 255)
    ∧ (1 < w → applyWindowLevel c w v ≤ applyWindowLevel c w v2) := by
  refine ⟨rfl, ?_, ?_, ?_, ?_⟩
  · simpa only [applyWindowLevelTo8bit] using clip255_bounds _
  · simp only [applyWindowLevelTo8bit]
    apply clip255_mono
    have hpos : (0 : ℚ) < (c + max 1 w / 2) - (c - max 1 w / 2) := by
      have h1 : (1 : ℚ) ≤ max 1 w := le_max_left 1 w
      linarith
    rw [div_le_div_iff₀ hpos hpos]
    nlinarith
  · intro hw
    have hcond : ¬ (w ≤ 1/1000000) := by
      intro hle
      have : (1 : ℚ)/1000000 < 1 := by norm_num
      linarith
    simpa only [applyWindowLevel, if_neg hcond] using clip255_bounds _
  · intro hw
    have hcond : ¬ (w ≤ 1/1000000) := by
      intro hle
      have : (1 : ℚ)/1000000 < 1 := by norm_num
      linarith
    simp only [applyWindowLevel, if_neg hcond]
    apply clip255_mono
    have hpos : (0 : ℚ) < (c - 1/2 + (w - 1) / 2) - (c - 1/2 - (w - 1) / 2) := by
      linarith
    rw [div_le_div_iff₀ hpos hpos]
    nlinarith

/-- Claim C2, counterexample to the claim as stated: at center 0,
width 2, value 0, `apply_window_level` returns 255 whereas the claimed
formula gives 127.5. -/
theorem C2_counterexample :
    applyWindowLevel 0 2 0 = 255 ∧ specWindowLevel 0 2 0 = 255/2
    ∧ ((255 : ℚ) ≠ 255/2) := by
  refine ⟨?_, ?_, by norm_num⟩
  · norm_num [applyWindowLevel, npClipQ]
  · norm_num [specWindowLevel, npClipQ]

/-- Claim C2, witness: the amended theorem at center 40 and values 10
and 20, applied once at width 1/2 (exercising the display mapping's
`max(1.0, width)` clamp) and once at width 400 (discharging the
`width > 1` hypothesis of the `apply_window_level` conjuncts). -/
theorem C2_window_level_witness :
    ((10 : ℚ) ≤ 20 ∧ (1 : ℚ) < 400) ∧
    (applyWindowLevelTo8bit 40 (1/2) 10 = specWindowLevel 40 (1/2) 10
    ∧ (0 ≤ applyWindowLevelTo8bit 40 (1/2) 10 ∧ applyWindowLevelTo8bit 40 (1/2) 10 ≤ 255)
    ∧ applyWindowLevelTo8bit 40 (1/2) 10 ≤ applyWindowLevelTo8bit 40 (1/2) 20)
    ∧ ((0 ≤ applyWindowLevel 40 400 10 ∧ applyWindowLevel 40 400 10 ≤ 255)
    ∧ applyWindowLevel 40 400 10 ≤ applyWindowLevel 40 400 20) := by
  have h1 := C2_window_level 40 (1/2) 10 20 (by norm_num)
  have h2 := C2_window_level 40 400 10 20 (by norm_num)
  exact ⟨⟨by norm_num, by norm_num⟩, ⟨h1.1, h1.2.1, h1.2.2.1⟩,
    ⟨h2.2.2.2.1 (by norm_num), h2.2.2.2.2 (by norm_num)⟩⟩

/-- Claim C7 (confirmed): for mask volumes of rank 2, 3 or 4 with
nonempty depth/time axes, `get_mask_slice` returns a 2D plane with `z`
clamped to `[0, depth-1]` and `t` clamped to `[0, time-1]` for every
integer index pair, including negative and out-of-range ones, and never
raises. -/
theorem C7_mask_slice (m2 : GImg) (h w z t : Nat)
    (p3 : Nat → Nat → Nat → ℚ) (p4 : Nat → Nat → Nat → Nat → ℚ)
    (zIdx tIdx : ℤ) (hz : 1 ≤ z) (ht : 1 ≤ t) :
    getMaskSlice (MaskVol.d2 m2) zIdx tIdx = Except.ok m2
    ∧ getMaskSlice (MaskVol.d3 h w z p3) zIdx tIdx
        = Except.ok ⟨h, w, fun y x => p3 y x (npClipZ zIdx 0 ((z : ℤ) - 1)).toNat⟩
    ∧ getMaskSlice (MaskVol.d4 h w z t p4) zIdx tIdx
        = Except.ok ⟨h, w, fun y x =>
            p4 y x (npClipZ zIdx 0 ((z : ℤ) - 1)).toNat (npClipZ tIdx 0 ((t : ℤ) - 1)).toNat⟩
    ∧ (0 ≤ npClipZ zIdx 0 ((z : ℤ) - 1) ∧ npClipZ zIdx 0 ((z : ℤ) - 1) ≤ (z : ℤ) - 1)
    ∧ (0 ≤ npClipZ tIdx 0 ((t : ℤ) - 1) ∧ npClipZ tIdx 0 ((t : ℤ) - 1) ≤ (t : ℤ) - 1) := by
  have hz1 : (1 : ℤ) ≤ (z : ℤ) := by exact_mod_cast hz
  have ht1 : (1 : ℤ) ≤ (t : ℤ) := by exact_mod_cast ht
  refine ⟨rfl, ?_, ?_, ?_, ?_⟩
  · simp only [getMaskSlice, if_pos hz]
  · simp only [getMaskSlice, if_pos (And.intro hz ht)]
  · exact ⟨le_min (le_max_right _ _) (by omega), min_le_right _ _⟩
  · exact ⟨le_min (le_max_right _ _) (by omega), min_le_right _ _⟩

/-- Claim C7, witness: a rank-3 volume of depth 3 and a rank-4 volume of
depth 3 and time 2, indexed at `z = -7`, `t = 99`. -/
theorem C7_mask_slice_witness :
    ((1 : Nat) ≤ 3 ∧ (1 : Nat) ≤ 2) ∧
    (getMaskSlice (MaskVol.d2 ⟨1, 1, fun _ _ => 5⟩) (-7) 99
        = Except.ok ⟨1, 1, fun _ _ => 5⟩
    ∧ getMaskSlice (MaskVol.d3 2 2 3 (fun _ _ k => (k : ℚ))) (-7) 99
        = Except.ok ⟨2, 2, fun y x => (fun _ _ k => (k : ℚ)) y x (npClipZ (-7) 0 ((3 : ℤ) - 1)).toNat⟩
    ∧ getMaskSlice (MaskVol.d4 2 2 3 2 (fun _ _ k l => (k + l : ℚ))) (-7) 99
        = Except.ok ⟨2, 2, fun y x =>
            (fun _ _ k l => (k + l : ℚ)) y x (npClipZ (-7) 0 ((3 : ℤ) - 1)).toNat
              (npClipZ 99 0 ((2 : ℤ) - 1)).toNat⟩
    ∧ (0 ≤ npClipZ (-7) 0 ((3 : ℤ) - 1) ∧ npClipZ (-7) 0 ((3 : ℤ) - 1) ≤ (3 : ℤ) - 1)
    ∧ (0 ≤ npClipZ 99 0 ((2 : ℤ) - 1) ∧ npClipZ 99 0 ((2 : ℤ) - 1) ≤ (2 : ℤ) - 1)) :=
  ⟨⟨by decide, by decide⟩,
    C7_mask_slice ⟨1, 1, fun _ _ => 5⟩ 2 2 3 2 (fun _ _ k => (k : ℚ))
      (fun _ _ k l => (k + l : ℚ)) (-7) 99 (by decide) (by decide)⟩

/-- Claim C9 (confirmed): from any view state with zoom factor in
`[0.5, 10.0]` and any pan offset, toggling the zoom checkbox off resets
the zoom factor to 1.0 and the pan to `(0, 0)` for the next render,
leaving the slice indices untouched; the wheel handler keeps the zoom
factor inside `[0.5, 10.0]` while zoom is enabled. -/
theorem C9_toggle_zoom_reset (s : ViewState) (d : ℤ)
    (h1 : 1/2 ≤ s.zoomFactor) (h2 : s.zoomFactor ≤ 10) :
    (toggleZoom false s).zoomFactor = 1
    ∧ (toggleZoom false s).panX = 0
    ∧ (toggleZoom false s).panY = 0
    ∧ (toggleZoom false s).zoomEnabled = false
    ∧ (toggleZoom false s).zIndex = s.zIndex
    ∧ (toggleZoom false s).tIndex = s.tIndex
    ∧ (s.zoomEnabled = true →
        1/2 ≤ (onMouseWheel d s).zoomFactor ∧ (onMouseWheel d s).zoomFactor ≤ 10) := by
  refine ⟨rfl, rfl, rfl, rfl, rfl, rfl, fun he => ?_⟩
  simp only [onMouseWheel, he, if_true]
  exact ⟨le_max_left _ _, max_le (by norm_num) (min_le_left _ _)⟩

/-- Claim C9, witness: the theorem at the state reached in the spec
scenario (zoom enabled, factor 2.0, pan `(50, -20)`). -/
theorem C9_toggle_zoom_reset_witness :
    ((1 : ℚ)/2 ≤ 2 ∧ (2 : ℚ) ≤ 10) ∧
    ((toggleZoom false ⟨true, 2, 50, -20, 3, 1⟩).zoomFactor = 1
    ∧ (toggleZoom false ⟨true, 2, 50, -20, 3, 1⟩).panX = 0
    ∧ (toggleZoom false ⟨true, 2, 50, -20, 3, 1⟩).panY = 0
    ∧ (toggleZoom false ⟨true, 2, 50, -20, 3, 1⟩).zoomEnabled = false
    ∧ (toggleZoom false ⟨true, 2, 50, -20, 3, 1⟩).zIndex
        = (⟨true, 2, 50, -20, 3, 1⟩ : ViewState).zIndex
    ∧ (toggleZoom false ⟨true, 2, 50, -20, 3, 1⟩).tIndex
        = (⟨true, 2, 50, -20, 3, 1⟩ : ViewState).tIndex
    ∧ ((⟨true, 2, 50, -20, 3, 1⟩ : ViewState).zoomEnabled = true →
        1/2 ≤ (onMouseWheel 1 ⟨true, 2, 50, -20, 3, 1⟩).zoomFactor
        ∧ (onMouseWheel 1 ⟨true, 2, 50, -20, 3, 1⟩).zoomFactor ≤ 10)) :=
  ⟨⟨by norm_num, by norm_num⟩,
    C9_toggle_zoom_reset ⟨true, 2, 50, -20, 3, 1⟩ 1 (by norm_num) (by norm_num)⟩

/-- Claim C10 (confirmed): whenever the zoom factor is within `1e-6` of
`1.0`, both zoom-and-pan operations return the input array unchanged,
for every pan offset. -/
theorem C10_zoom_identity (P : CvPrims) (img : NpImg) (m : NMask)
    (z panx pany : ℚ) (hz : |z - 1| < 1/1000000) :
    applyZoomAndPan P img z panx pany = img
    ∧ applyZoomAndPanMask m z panx pany = m := by
  constructor
  · unfold applyZoomAndPan
    rw [if_pos hz]
  · unfold applyZoomAndPanMask
    rw [if_pos hz]

/-- Claim C5 (confirmed): with histogram equalization, brightness/contrast
and colormap disabled, the pipeline returns the input slice exactly —
both with zoom disabled and with zoom enabled at factor 1.0 (any pan) —
so the displayed frame after the caller's single clip-to-`[0,255]`/uint8
cast equals the clip-cast of the input. -/
theorem C5_pipeline_identity (P : CvPrims) (img : NpImg) (b c zf panx pany : ℚ) :
    applyAllProcessing P img false false b c false false zf panx pany = img
    ∧ applyAllProcessing P img false false b c false true 1 panx pany = img := by
  constructor
  · rfl
  · show applyZoomAndPan P img 1 panx pany = img
    unfold applyZoomAndPan
    rw [if_pos (by norm_num : |(1 : ℚ) - 1| < 1/1000000)]

/-- Claim C8 (confirmed): overlay compositing blends each masked pixel as
`out = (1-alpha)*base + alpha*color` (alpha clamped to `[0,1]`, final
clip/uint8 cast applied frame-wide); consequently an all-ones mask at
alpha 1.0 yields exactly the overlay color at every pixel, and at zoom
factor 1.0 the mask itself passes through the zoom stage unchanged. -/
theorem C8_overlay_blend (base : RGBImg) (mask : NMask) (alpha : ℚ)
    (color : Fin 3 → ℚ) (hh : base.h = mask.h) (hw : base.w = mask.w) :
    (applyOverlayToPil base mask alpha color
      = Except.ok ⟨base.h, base.w, fun y x k =>
          if 0 < mask.px y x
          then toU8 ((1 - max 0 (min 1 alpha)) * base.px y x k
                      + max 0 (min 1 alpha) * color k)
          else toU8 (base.px y x k)⟩)
    ∧ (∀ y x k (n : ℕ), (∀ y2 x2, 0 < mask.px y2 x2) → alpha = 1 →
        color k = (n : ℚ) → n ≤ 255 →
        ∀ out, applyOverlayToPil base mask alpha color = Except.ok out →
          out.px y x k = (n : ℤ))
    ∧ (∀ panx pany, applyZoomAndPanMask mask 1 panx pany = mask) := by
  have hmain : applyOverlayToPil base mask alpha color
      = Except.ok ⟨base.h, base.w, fun y x k =>
          if 0 < mask.px y x
          then toU8 ((1 - max 0 (min 1 alpha)) * base.px y x k
                      + max 0 (min 1 alpha) * color k)
          else toU8 (base.px y x k)⟩ := by
    unfold applyOverlayToPil
    rw [if_pos (And.intro hh hw)]
  refine ⟨hmain, ?_, ?_⟩
  · intro y x k n hmask ha hc hn out hout
    rw [hmain] at hout
    injection hout with hout2
    rw [← hout2]
    simp only [if_pos (hmask y x), ha]
    have hclamp : max 0 (min 1 (1 : ℚ)) = 1 := by norm_num
    rw [hclamp, hc]
    have harg : (1 - 1) * base.px y x k + 1 * (n : ℚ) = (n : ℚ) := by ring
    rw [harg]
    unfold toU8 npClipQ
    rw [max_eq_left (by positivity), min_eq_left (by exact_mod_cast hn)]
    exact Int.floor_natCast n
  · intro panx pany
    unfold applyZoomAndPanMask
    rw [if_pos (by norm_num : |(1 : ℚ) - 1| < 1/1000000)]

/-- Claim C8, witness: a 1x1 base frame of value 100, the all-ones mask,
alpha 1.0 and overlay color 200. -/
theorem C8_overlay_blend_witness :
    ((⟨1, 1, fun _ _ _ => 100⟩ : RGBImg).h = (⟨1, 1, fun _ _ => 1⟩ : NMask).h
      ∧ (⟨1, 1, fun _ _ _ => 100⟩ : RGBImg).w = (⟨1, 1, fun _ _ => 1⟩ : NMask).w) ∧
    ((applyOverlayToPil ⟨1, 1, fun _ _ _ => 100⟩ ⟨1, 1, fun _ _ => 1⟩ 1 (fun _ => 200)
      = Except.ok ⟨(⟨1, 1, fun _ _ _ => 100⟩ : RGBImg).h,
          (⟨1, 1, fun _ _ _ => 100⟩ : RGBImg).w, fun y x k =>
          if 0 < (⟨1, 1, fun _ _ => 1⟩ : NMask).px y x
          then toU8 ((1 - max 0 (min 1 (1 : ℚ))) * (⟨1, 1, fun _ _ _ => 100⟩ : RGBImg).px y x k
                      + max 0 (min 1 (1 : ℚ)) * (fun (_ : Fin 3) => (200 : ℚ)) k)
          else toU8 ((⟨1, 1, fun _ _ _ => 100⟩ : RGBImg).px y x k)⟩)
    ∧ (∀ y x k (n : ℕ), (∀ y2 x2, 0 < (⟨1, 1, fun _ _ => 1⟩ : NMask).px y2 x2) → (1 : ℚ) = 1 →
        (fun (_ : Fin 3) => (200 : ℚ)) k = (n : ℚ) → n ≤ 255 →
        ∀ out, applyOverlayToPil ⟨1, 1, fun _ _ _ => 100⟩ ⟨1, 1, fun _ _ => 1⟩ 1 (fun _ => 200)
          = Except.ok out → out.px y x k = (n : ℤ))
    ∧ (∀ panx pany,
        applyZoomAndPanMask ⟨1, 1, fun _ _ => 1⟩ 1 panx pany = ⟨1, 1, fun _ _ => 1⟩)) :=
  ⟨⟨rfl, rfl⟩,
    C8_overlay_blend ⟨1, 1, fun _ _ _ => 100⟩ ⟨1, 1, fun _ _ => 1⟩ 1 (fun _ => 200) rfl rfl⟩

theorem nnIndex_lt {srcN : Nat} (dstN x : Nat) (h : 1 ≤ srcN) : nnIndex srcN dstN x < srcN :=
  lt_of_le_of_lt (min_le_right _ _) (by omega)

/-- Unfolding of the non-trivial branch of `applyZoomAndPanMask`. -/
theorem applyZoomAndPanMask_px (m : NMask) (zoom panx pany : ℚ)
    (hz : ¬ |zoom - 1| < 1/1000000) (y x : Nat) :
    (applyZoomAndPanMask m zoom panx pany).px y x
      = (m.px ((cropRect m.h m.w (if zoom ≤ 0 then 1 else zoom) panx pany).2.1.toNat
            + nnIndex ((cropRect m.h m.w (if zoom ≤ 0 then 1 else zoom) panx pany).2.2.2
                - (cropRect m.h m.w (if zoom ≤ 0 then 1 else zoom) panx pany).2.1).toNat m.h y)
           ((cropRect m.h m.w (if zoom ≤ 0 then 1 else zoom) panx pany).1.toNat
            + nnIndex ((cropRect m.h m.w (if zoom ≤ 0 then 1 else zoom) panx pany).2.2.1
                - (cropRect m.h m.w (if zoom ≤ 0 then 1 else zoom) panx pany).1).toNat m.w x)) % 256 := by
  simp only [applyZoomAndPanMask, if_neg hz]

/-- Every pixel read through a well-formed crop rectangle followed by a
nearest-neighbor resize comes from an in-range input pixel. -/
theorem crop_nn_subset (m : NMask) (x1 y1 x2 y2 : ℤ) (y x : Nat)
    (hvals : ∀ a b, a < m.h → b < m.w → m.px a b < 256)
    (h1 : 0 ≤ x1) (h2 : x1 < x2) (h3 : x2 ≤ (m.w : ℤ))
    (h4 : 0 ≤ y1) (h5 : y1 < y2) (h6 : y2 ≤ (m.h : ℤ)) :
    ∃ ya xa, ya < m.h ∧ xa < m.w ∧
      (m.px (y1.toNat + nnIndex (y2 - y1).toNat m.h y)
            (x1.toNat + nnIndex (x2 - x1).toNat m.w x)) % 256 = m.px ya xa := by
  have hch : 1 ≤ (y2 - y1).toNat := by omega
  have hcw : 1 ≤ (x2 - x1).toNat := by omega
  have hyi := nnIndex_lt m.h y hch
  have hxi := nnIndex_lt m.w x hcw
  have hya : y1.toNat + nnIndex (y2 - y1).toNat m.h y < m.h := by omega
  have hxa : x1.toNat + nnIndex (x2 - x1).toNat m.w x < m.w := by omega
  exact ⟨_, _, hya, hxa, Nat.mod_eq_of_lt (hvals _ _ hya hxa)⟩

/-- Claim C6 (amended): for masks whose labels fit in a byte — the uint8
range both operations cast to via `astype(np.uint8)` — the two
nearest-neighbor mask resampling operations (zoom+pan on a mask and
resize-to-target) produce outputs whose every pixel value equals some
input pixel value, for every zoom factor, pan offset and target size; in
particular a two-label uint8 mask never acquires a third label.  For
labels at or above 256 the cast wraps mod 256 and can introduce a value
not present in the input (see the counterexample). -/
theorem C6_mask_label_subset (m : NMask) (zoom panx pany : ℚ) (tw th : Nat)
    (hh : 1 ≤ m.h) (hw : 1 ≤ m.w) (htw : 1 ≤ tw) (hth : 1 ≤ th)
    (hvals : ∀ y x, y < m.h → x < m.w → m.px y x < 256) :
    (∀ y x, y < m.h → x < m.w →
      ∃ y2 x2, y2 < m.h ∧ x2 < m.w ∧
        (applyZoomAndPanMask m zoom panx pany).px y x = m.px y2 x2)
    ∧ (∀ y x, y < th → x < tw →
      ∃ y2 x2, y2 < m.h ∧ x2 < m.w ∧
        (resizeMaskNearest m tw th).px y x = m.px y2 x2) := by
  constructor
  · intro y x hy hx
    by_cases hz : |zoom - 1| < 1/1000000
    · exact ⟨y, x, hy, hx, by unfold applyZoomAndPanMask; rw [if_pos hz]⟩
    · obtain ⟨hb1, hb2, hb3, hb4, hb5, hb6, hb7, hb8⟩ :=
        cropRect_bounds m.h m.w (if zoom ≤ 0 then 1 else zoom) panx pany hh hw
      rw [applyZoomAndPanMask_px m zoom panx pany hz y x]
      exact crop_nn_subset m _ _ _ _ y x hvals hb1 hb3 hb4 hb5 hb7 hb8
  · intro y x hy hx
    refine ⟨nnIndex m.h th y, nnIndex m.w tw x, nnIndex_lt th y hh, nnIndex_lt tw x hw, ?_⟩
    show (m.px (nnIndex m.h th y) (nnIndex m.w tw x)) % 256 = _
    exact Nat.mod_eq_of_lt (hvals _ _ (nnIndex_lt th y hh) (nnIndex_lt tw x hw))

/-- Claim C6, counterexample to the claim as stated: resizing the
two-label mask `[[0, 300]]` to 2x1 passes its values through
`astype(np.uint8)`, so the output contains 44 (= 300 mod 256), a third
label value not present in the input. -/
theorem C6_counterexample :
    (resizeMaskNearest ⟨1, 2, fun _ x => if x = 0 then 0 else 300⟩ 2 1).px 0 1 = 44
    ∧ (∀ y x, y < 1 → x < 2 →
        (⟨1, 2, fun _ x => if x = 0 then 0 else 300⟩ : NMask).px y x ≠ 44) := by
  constructor
  · decide
  · intro y x hy hx
    show (if x = 0 then 0 else 300) ≠ 44
    split <;> omega

/-- Claim C6, witness: a 2x2 two-label mask, zoom factor 2 with pan
`(1, 0)`, and resize target 4x3. -/
theorem C6_mask_label_subset_witness :
    ((1 : Nat) ≤ 2 ∧ (1 : Nat) ≤ 4 ∧ (1 : Nat) ≤ 3
      ∧ (∀ y x, y < 2 → x < 2 → (⟨2, 2, fun y x => (y + x) % 2⟩ : NMask).px y x < 256)) ∧
    ((∀ y x, y < (⟨2, 2, fun y x => (y + x) % 2⟩ : NMask).h →
        x < (⟨2, 2, fun y x => (y + x) % 2⟩ : NMask).w →
      ∃ y2 x2, y2 < (⟨2, 2, fun y x => (y + x) % 2⟩ : NMask).h
        ∧ x2 < (⟨2, 2, fun y x => (y + x) % 2⟩ : NMask).w
        ∧ (applyZoomAndPanMask ⟨2, 2, fun y x => (y + x) % 2⟩ 2 1 0).px y x
            = (⟨2, 2, fun y x => (y + x) % 2⟩ : NMask).px y2 x2)
    ∧ (∀ y x, y < 3 → x < 4 →
      ∃ y2 x2, y2 < (⟨2, 2, fun y x => (y + x) % 2⟩ : NMask).h
        ∧ x2 < (⟨2, 2, fun y x => (y + x) % 2⟩ : NMask).w
        ∧ (resizeMaskNearest ⟨2, 2, fun y x => (y + x) % 2⟩ 4 3).px y x
            = (⟨2, 2, fun y x => (y + x) % 2⟩ : NMask).px y2 x2)) :=
  ⟨⟨by decide, by decide, by decide,
      fun y x _ _ => by show (y + x) % 2 < 256; omega⟩,
    C6_mask_label_subset ⟨2, 2, fun y x => (y + x) % 2⟩ 2 1 0 4 3
      (by decide) (by decide) (by decide) (by decide)
      (fun y x _ _ => by show (y + x) % 2 < 256; omega)⟩

theorem pairwise_imp_mem {α : Type} {l : List α} {R S : α → α → Prop}
    (h : ∀ a b, a ∈ l → b ∈ l → R a b → S a b) (hp : l.Pairwise R) : l.Pairwise S := by
  induction l with
  | nil => exact List.Pairwise.nil
  | cons z zs ih =>
    rcases List.pairwise_cons.mp hp with ⟨h1, h2⟩
    refine List.pairwise_cons.mpr ⟨?_, ?_⟩
    · intro b hb
      exact h z b (List.mem_cons_self z zs) (List.mem_cons_of_mem z hb) (h1 b hb)
    · exact ih (fun a b ha hb => h a b (List.mem_cons_of_mem z ha) (List.mem_cons_of_mem z hb)) h2

theorem seriesSortKey_of_ipp_iop {hd : DHeader} (name : String)
    {ipp : ℚ × ℚ × ℚ} {iop : (ℚ × ℚ × ℚ) × (ℚ × ℚ × ℚ)}
    (h1 : hd.ipp = some ipp) (h2 : hd.iop = some iop) :
    seriesSortKey hd name = SortKey.proj (normalProjection ipp iop) := by
  unfold seriesSortKey
  rw [h1, h2]

theorem seriesSortKey_of_sliceLoc {hd : DHeader} (name : String) {sl : ℚ}
    (hno : hd.ipp = none ∨ hd.iop = none) (hsl : hd.sliceLocation = some sl) :
    seriesSortKey hd name = SortKey.sliceLoc sl := by
  unfold seriesSortKey
  rcases hno with h | h
  · rw [h, hsl]
  · rw [h, hsl]
    cases hd.ipp <;> rfl

theorem projKey_eq {f : DFile} {ipp : ℚ × ℚ × ℚ}
    {iop : (ℚ × ℚ × ℚ) × (ℚ × ℚ × ℚ)}
    (h1 : f.hdr.ipp = some ipp) (h2 : f.hdr.iop = some iop) :
    projKey f = normalProjection ipp iop := by
  unfold projKey
  rw [h1, h2]

theorem slKey_eq {f : DFile} {sl : ℚ} (hsl : f.hdr.sliceLocation = some sl) :
    slKey f = sl := by
  unfold slKey
  rw [hsl]
  rfl

/-- Claim C4 (confirmed): `_series_sort_key` prefers the normal-projection
of the position when orientation and position tags are present —
independently of any `InstanceNumber` — and otherwise falls back to
`SliceLocation`, then `InstanceNumber`, then the filename; consequently
sorting headers that carry no orientation/position but do declare a
`SliceLocation` yields ascending `SliceLocation` order, and sorting
headers that carry orientation+position yields ascending normal-projection
order regardless of their `InstanceNumber`s. -/
theorem C4_series_sort (l l2 : List DFile)
    (hloc : ∀ f ∈ l, (f.hdr.ipp = none ∨ f.hdr.iop = none)
      ∧ (f.hdr.sliceLocation).isSome)
    (hgeo : ∀ f ∈ l2, (f.hdr.ipp).isSome ∧ (f.hdr.iop).isSome) :
    (∀ (hd : DHeader) (name : String) (ipp : ℚ × ℚ × ℚ)
        (iop : (ℚ × ℚ × ℚ) × (ℚ × ℚ × ℚ)) (inst2 : Option ℤ),
      hd.ipp = some ipp → hd.iop = some iop →
        seriesSortKey { hd with instanceNumber := inst2 } name
          = SortKey.proj (normalProjection ipp iop))
    ∧ (∀ (hd : DHeader) (name : String) (sl : ℚ),
        (hd.ipp = none ∨ hd.iop = none) → hd.sliceLocation = some sl →
          seriesSortKey hd name = SortKey.sliceLoc sl)
    ∧ (∀ (hd : DHeader) (name : String) (inst2 : ℤ),
        (hd.ipp = none ∨ hd.iop = none) → hd.sliceLocation = none →
          hd.instanceNumber = some inst2 →
            seriesSortKey hd name = SortKey.instNum inst2)
    ∧ (∀ (hd : DHeader) (name : String),
        (hd.ipp = none ∨ hd.iop = none) → hd.sliceLocation = none →
          hd.instanceNumber = none → seriesSortKey hd name = SortKey.fname name)
    ∧ (sortCandidates l).Pairwise (fun a b => slKey a ≤ slKey b)
    ∧ (sortCandidates l2).Pairwise (fun a b => projKey a ≤ projKey b) := by
  refine ⟨?_, ?_, ?_, ?_, ?_, ?_⟩
  · intro hd name ipp iop inst2 h1 h2
    exact seriesSortKey_of_ipp_iop name h1 h2
  · intro hd name sl hno hsl
    exact seriesSortKey_of_sliceLoc name hno hsl
  · intro hd name inst2 hno hsl hin
    unfold seriesSortKey
    rcases hno with h | h
    · rw [h, hsl, hin]
    · rw [h, hsl, hin]
      cases hd.ipp <;> rfl
  · intro hd name hno hsl hin
    unfold seriesSortKey
    rcases hno with h | h
    · rw [h, hsl, hin]
    · rw [h, hsl, hin]
      cases hd.ipp <;> rfl
  · have hs : (sortCandidates l).Pairwise fileLe :=
      List.sorted_insertionSort fileLe l
    refine pairwise_imp_mem ?_ hs
    intro a b ha hb hab
    have ha2 : a ∈ l := (List.mem_insertionSort fileLe).mp ha
    have hb2 : b ∈ l := (List.mem_insertionSort fileLe).mp hb
    obtain ⟨hnoa, hsla⟩ := hloc a ha2
    obtain ⟨hnob, hslb⟩ := hloc b hb2
    obtain ⟨sa, hsa⟩ := Option.isSome_iff_exists.mp hsla
    obtain ⟨sb, hsb⟩ := Option.isSome_iff_exists.mp hslb
    rw [slKey_eq hsa, slKey_eq hsb]
    unfold fileLe at hab
    rw [seriesSortKey_of_sliceLoc a.name hnoa hsa,
      seriesSortKey_of_sliceLoc b.name hnob hsb] at hab
    simpa [SortKey.leb] using hab
  · have hs : (sortCandidates l2).Pairwise fileLe :=
      List.sorted_insertionSort fileLe l2
    refine pairwise_imp_mem ?_ hs
    intro a b ha hb hab
    have ha2 : a ∈ l2 := (List.mem_insertionSort fileLe).mp ha
    have hb2 : b ∈ l2 := (List.mem_insertionSort fileLe).mp hb
    obtain ⟨hia, hoa⟩ := hgeo a ha2
    obtain ⟨hib, hob⟩ := hgeo b hb2
    obtain ⟨pa, hpa⟩ := Option.isSome_iff_exists.mp hia
    obtain ⟨oa, hoa2⟩ := Option.isSome_iff_exists.mp hoa
    obtain ⟨pb, hpb⟩ := Option.isSome_iff_exists.mp hib
    obtain ⟨ob, hob2⟩ := Option.isSome_iff_exists.mp hob
    rw [projKey_eq hpa hoa2, projKey_eq hpb hob2]
    unfold fileLe at hab
    rw [seriesSortKey_of_ipp_iop a.name hpa hoa2,
      seriesSortKey_of_ipp_iop b.name hpb hob2] at hab
    simpa [SortKey.leb] using hab

/-- Claim C4, witness: sorting the two slice-location-only headers
`[5, 3]` and the two geometric headers whose instance order disagrees
with their normal projections. -/
theorem C4_series_sort_witness :
    ((∀ f ∈ [dfA, dfB], (f.hdr.ipp = none ∨ f.hdr.iop = none)
        ∧ (f.hdr.sliceLocation).isSome)
      ∧ (∀ f ∈ [dfC, dfD], (f.hdr.ipp).isSome ∧ (f.hdr.iop).isSome)) ∧
    (sortCandidates [dfA, dfB]).Pairwise (fun a b => slKey a ≤ slKey b) ∧
    (sortCandidates [dfC, dfD]).Pairwise (fun a b => projKey a ≤ projKey b) :=
  ⟨⟨by decide, by decide⟩,
    (C4_series_sort [dfA, dfB] [dfC, dfD] (by decide) (by decide)).2.2.2.2.1,
    (C4_series_sort [dfA, dfB] [dfC, dfD] (by decide) (by decide)).2.2.2.2.2⟩

theorem stackStep_cases (st : Option (Nat × Nat) × List GImg) (f : DFile) :
    stackStep st f = st ∨ ∃ sh g2, stackStep st f = (some sh, g2 :: st.2) := by
  obtain ⟨s1, s2⟩ := st
  by_cases hc : (f.pixOk = true) ∧ (f.hasPixelData = true)
  · cases hp : f.pix with
    | arr2 g =>
      cases s1 with
      | none =>
        exact Or.inr ⟨(g.h, g.w), scaleSlice f.hdr g, by
          simp [stackStep, hc.1, hc.2, hp]⟩
      | some sh =>
        by_cases he : (g.h, g.w) = sh
        · exact Or.inr ⟨sh, scaleSlice f.hdr g, by
            simp [stackStep, hc.1, hc.2, hp, he]⟩
        · exact Or.inl (by simp [stackStep, hc.1, hc.2, hp, he])
    | arr3 d h w p => exact Or.inl (by simp [stackStep, hc.1, hc.2, hp])
    | arrOther => exact Or.inl (by simp [stackStep, hc.1, hc.2, hp])
  · exact Or.inl (by unfold stackStep; rw [if_neg hc])

theorem foldl_stack_ne_nil (l : List DFile) (st : Option (Nat × Nat) × List GImg)
    (h : st.2 ≠ []) : (l.foldl stackStep st).2 ≠ [] := by
  induction l generalizing st with
  | nil => exact h
  | cons f fs ih =>
    show ((fs.foldl stackStep (stackStep st f)).2 ≠ [])
    apply ih
    rcases stackStep_cases st f with he | ⟨sh, g2, he⟩
    · rw [he]; exact h
    · rw [he]; exact List.cons_ne_nil g2 st.2

theorem stack_produces_slice (l : List DFile) (st : Option (Nat × Nat) × List GImg)
    (f : DFile) (hf : f ∈ l) (hok : f.pixOk = true) (hpd : f.hasPixelData = true)
    (g : GImg) (hg : f.pix = PixArr.arr2 g) (hinv : st.1 = none ∨ st.2 ≠ []) :
    (l.foldl stackStep st).2 ≠ [] := by
  induction l generalizing st with
  | nil => cases hf
  | cons a as ih =>
    show ((as.foldl stackStep (stackStep st a)).2 ≠ [])
    rcases List.mem_cons.mp hf with heq | hmem
    · subst heq
      rcases hinv with h1 | h2
      · have hcons : (stackStep st f).2 ≠ [] := by
          obtain ⟨s1, s2⟩ := st
          have h1b : s1 = none := h1
          subst h1b
          unfold stackStep
          rw [if_pos (And.intro hok hpd), hg]
          exact List.cons_ne_nil _ _
        exact foldl_stack_ne_nil as _ hcons
      · have hcons : (stackStep st f).2 ≠ [] := by
          rcases stackStep_cases st f with he | ⟨sh, g2, he⟩
          · rw [he]; exact h2
          · rw [he]; exact List.cons_ne_nil _ _
        exact foldl_stack_ne_nil as _ hcons
    · refine ih (stackStep st a) hmem ?_
      rcases stackStep_cases st a with he | ⟨sh, g2, he⟩
      · rw [he]; exact hinv
      · rw [he]; exact Or.inr (List.cons_ne_nil _ _)

/-- Claim C3 (amended): when the reference file's series identity is
absent (or empty), or when the folder scan finds zero usable sibling
slices, `load_dicom_series_from_file` falls back to treating the
reference file as a single-file volume, which for a 2D pixel array has
depth 1; and for every structurally valid single grayscale DICOM file in
its folder the loader returns a volume without raising.  (With exactly
one usable sibling the series path runs instead of the fallback — see the
counterexample.) -/
theorem C3_fallback :
    (∀ ref folder, ref.hdrOk = true → uidPresent ref.hdr.seriesUID = false →
        loadDicomSeriesFromFile ref folder = singleFileLoad ref)
    ∧ (∀ ref folder, ref.hdrOk = true → uidPresent ref.hdr.seriesUID = true →
        ¬ (1 < nframesOf ref.hdr) →
        candidateFilter ref.hdr.seriesUID folder = [] →
        loadDicomSeriesFromFile ref folder = singleFileLoad ref)
    ∧ (∀ f g, f.pixOk = true → f.pix = PixArr.arr2 g →
        singleFileLoad f = Except.ok (NArr.a3 g.h g.w 1
          (fun y x _ => g.px y x * slopeOf f.hdr + interceptOf f.hdr)))
    ∧ (∀ ref folder, structValidGray ref → ref ∈ folder →
        ∃ v, loadDicomSeriesFromFile ref folder = Except.ok v) := by
  have hconj3 : ∀ (f : DFile) (g : GImg), f.pixOk = true → f.pix = PixArr.arr2 g →
      singleFileLoad f = Except.ok (NArr.a3 g.h g.w 1
        (fun y x _ => g.px y x * slopeOf f.hdr + interceptOf f.hdr)) := by
    intro f g hok hg
    unfold singleFileLoad
    rw [if_pos hok, hg]
  refine ⟨?_, ?_, hconj3, ?_⟩
  · intro ref folder h1 h2
    unfold loadDicomSeriesFromFile
    rw [if_neg (by simp [h1]), if_pos (by simp [h2])]
  · intro ref folder h1 h2 h3 h4
    unfold loadDicomSeriesFromFile
    rw [if_neg (by simp [h1]), if_neg (by simp [h2]), if_neg h3, h4]
    rfl
  · intro ref folder hval hmem
    obtain ⟨hok, hpd, hpx, hrc, hnf, g, hg⟩ := hval
    by_cases huid : uidPresent ref.hdr.seriesUID = true
    · have hnlt : ¬ (1 < nframesOf ref.hdr) := by omega
      have hcand : ref ∈ candidateFilter ref.hdr.seriesUID folder := by
        unfold candidateFilter
        refine List.mem_filter.mpr ⟨hmem, ?_⟩
        simp [hok, hrc]
      have hne : candidateFilter ref.hdr.seriesUID folder ≠ [] := by
        intro h
        rw [h] at hcand
        cases hcand
      have hstack :
          ((sortCandidates (candidateFilter ref.hdr.seriesUID folder)).foldl
            stackStep (none, [])).2 ≠ [] := by
        refine stack_produces_slice _ _ ref ?_ hpx hpd g hg (Or.inl rfl)
        exact (List.mem_insertionSort fileLe).mpr hcand
      simp only [loadDicomSeriesFromFile]
      rw [if_neg (by simp [hok]), if_neg (by simp [huid]), if_neg hnlt,
        if_neg (by simp [List.isEmpty_iff, hne])]
      have hrev :
          ((sortCandidates (candidateFilter ref.hdr.seriesUID folder)).foldl
            stackStep (none, [])).2.reverse ≠ [] := by
        simpa using hstack
      cases hrevc : ((sortCandidates (candidateFilter ref.hdr.seriesUID folder)).foldl
          stackStep (none, [])).2.reverse with
      | nil => exact absurd hrevc hrev
      | cons g0 rest => exact ⟨_, rfl⟩
    · have h2 : uidPresent ref.hdr.seriesUID = false := by
        simpa using huid
      unfold loadDicomSeriesFromFile
      rw [if_neg (by simp [hok]), if_pos (by simp [h2])]
      rw [hconj3 ref g hpx hg]
      exact ⟨_, rfl⟩

/-- Claim C3, counterexample to the claim as stated: a folder holding
exactly one usable sibling slice (the MONOCHROME1 reference file itself,
pixel value 3) does not fall back to the single-file volume — the series
path runs and applies the photometric inversion, yielding pixel 0 where
the single-file treatment yields 3. -/
theorem C3_counterexample :
    (candidateFilter dfE.hdr.seriesUID [dfE]).length = 1
    ∧ volAt (loadDicomSeriesFromFile dfE [dfE]) 0 0 0 = 0
    ∧ volAt (singleFileLoad dfE) 0 0 0 = 3
    ∧ ((0 : ℚ) ≠ 3) := by
  refine ⟨by decide, ?_, ?_, by norm_num⟩
  · norm_num [volAt, loadDicomSeriesFromFile, dfE, uidPresent, nframesOf,
      candidateFilter, sortCandidates, singleFileLoad, stackStep, scaleSlice,
      slopeOf, interceptOf, sliceMax, pixList, fileLe]
    rw [if_neg (by decide : ¬("1.2" = ""))]
    norm_num [show List.range 1 = [0] from rfl]
  · norm_num [volAt, singleFileLoad, dfE, slopeOf, interceptOf]

/-- Claim C3, witness: the amended theorem applied to the fixture file
`dfE` alone in its folder (never-raise conjunct), and to a file with the
series identity absent (fallback conjunct). -/
theorem C3_fallback_witness :
    (structValidGray dfE ∧ dfE ∈ [dfE]) ∧
    (∃ v, loadDicomSeriesFromFile dfE [dfE] = Except.ok v) :=
  ⟨⟨⟨rfl, rfl, rfl, rfl, by decide, ⟨1, 1, fun _ _ => 3⟩, rfl⟩,
      List.mem_cons_self dfE []⟩,
    (C3_fallback).2.2.2 dfE [dfE]
      ⟨rfl, rfl, rfl, rfl, by decide, ⟨1, 1, fun _ _ => 3⟩, rfl⟩
      (List.mem_cons_self dfE [])⟩

/-- Claim C10, witness: zoom factor exactly 1.0 with the non-zero pan
`(50, -20)` on a concrete image and mask. -/
theorem C10_zoom_identity_witness :
    |(1 : ℚ) - 1| < 1/1000000 ∧
    (applyZoomAndPan trivPrims (NpImg.gray ⟨1, 1, fun _ _ => 5⟩) 1 50 (-20)
        = NpImg.gray ⟨1, 1, fun _ _ => 5⟩
    ∧ applyZoomAndPanMask ⟨2, 2, fun y x => y + x⟩ 1 50 (-20)
        = ⟨2, 2, fun y x => y + x⟩) :=
  ⟨by norm_num,
    C10_zoom_identity trivPrims (NpImg.gray ⟨1, 1, fun _ _ => 5⟩)
      ⟨2, 2, fun y x => y + x⟩ 1 50 (-20) (by norm_num)⟩

end SMIV
